import Mathlib

/-!
# Verification of the helloworld instruction processor

Shallow embedding of `examples/helloworld/program/src/lib.rs`
(`process_instruction` and `HelloWorldParams`).

Modelling conventions:
* Bytes are `Nat` values (well-formed inputs use values `< 256`); byte
  buffers are `List Nat`.
* Host collaborators that live outside this repository
  (`bitcoin::consensus::deserialize`/`serialize`, `add_state_transition`,
  `get_account_script_pubkey`, `get_bitcoin_block_height`, the outcome of
  `AccountInfo::realloc`, `set_transaction_to_sign`) are fields of a `Host`
  record, modelled from the spec's external-interface contracts (§6).
* A Rust panic (`unwrap` on a decode failure, slice indexing out of bounds,
  `copy_from_slice` length mismatch) is the `Outcome.abort` result: the
  invocation aborts without returning a typed error value.
* `borsh::from_slice::<HelloWorldParams>` is implemented concretely from the
  borsh wire format the spec pins in §6: little-endian `u32` length prefix
  followed by the bytes, for `name` (which must be valid UTF-8) and then
  `tx_hex`, with the whole input consumed.
-/

namespace HelloWorld

/-- Errors returned (not panics).  The program itself only ever constructs
`custom 501` (`ProgramError::Custom(501)`, line 35 of the source); any other
value stands for an opaque error propagated verbatim from a host
collaborator. -/
inductive ProgramError where
  | custom (code : Nat)
  | hostFailure (tag : Nat)
  deriving DecidableEq, Repr

/-- How an invocation of `process_instruction` ends: `ok` (returns `Ok(())`),
`err e` (returns `Err(e)`), or `abort` (a Rust panic: `unwrap` of a failed
decode, `fees_tx.input[0]` on an empty input list, or a
`copy_from_slice` length mismatch). -/
inductive Outcome where
  | ok
  | err (e : ProgramError)
  | abort
  deriving DecidableEq, Repr

/-- A transaction input.  `process_instruction` never inspects the contents of
a `TxIn` (outpoint, script_sig, sequence, witness); it only clones
`fees_tx.input[0]` into the new transaction, so inputs are opaque tokens. -/
structure TxIn where
  raw : Nat
  deriving DecidableEq, Repr

/-- A transaction output; likewise never inspected, only appended by the
anchoring collaborator. -/
structure TxOut where
  raw : Nat
  deriving DecidableEq, Repr

/-- `bitcoin::Transaction`: version, lock time, inputs, outputs.  The source
constructs one with `Version::TWO` and `LockTime::ZERO` (lines 75-80). -/
structure Transaction where
  version : Int
  lockTime : Nat
  input : List TxIn
  output : List TxOut
  deriving DecidableEq, Repr

/-- The slice of `AccountInfo` this program reads: the public key and the
(mutable) data buffer.  Ownership/signer flags are never consulted. -/
structure AccountInfo where
  key : Nat
  data : List Nat
  deriving DecidableEq, Repr

/-- `HelloWorldParams` (lines 102-108 of the source): the name to greet and the
raw fee transaction bytes.  `name` is the UTF-8 byte content of the Rust
`String`. -/
structure HelloWorldParams where
  name : List Nat
  tx_hex : List Nat
  deriving DecidableEq, Repr

/-- `InputToSign { index, signer }`. -/
structure InputToSign where
  index : Nat
  signer : Nat
  deriving DecidableEq, Repr

/-- `TransactionToSign { tx_bytes, inputs_to_sign }`. -/
structure TransactionToSign where
  tx_bytes : List Nat
  inputs_to_sign : List InputToSign
  deriving DecidableEq, Repr

/-- Modelled from the spec: the host collaborators of §6, external to this
repository.  `decodeTx` is `bitcoin::consensus::deserialize::<Transaction>`
(partial: malformed bytes give `none`); `serializeTx` is
`bitcoin::consensus::serialize`; `anchorIns`/`anchorOuts` are the input/output
lists `add_state_transition` appends for the account's state commitment;
`reallocResult`/`submitResult` are the host's answers to
`AccountInfo::realloc` and `set_transaction_to_sign` (`none` = success). -/
structure Host where
  bitcoinBlockHeight : Nat
  decodeTx : List Nat → Option Transaction
  scriptPubkey : Nat → List Nat
  reallocResult : Option ProgramError
  anchorIns : AccountInfo → List TxIn
  anchorOuts : AccountInfo → List TxOut
  serializeTx : Transaction → List Nat
  submitResult : Option ProgramError

/-- Everything observable about one run of `process_instruction`: the final
outcome, the accounts' data buffers after the run, the `realloc` requests made
(in order, each `(new_len, zero_init)`), the assembled transaction and signing
request when their construction completed, and whether the anchoring and
submission collaborators were invoked. -/
structure ProcResult where
  outcome : Outcome
  accountsData : List (List Nat)
  reallocCalls : List (Nat × Bool)
  builtTx : Option Transaction
  txToSign : Option TransactionToSign
  anchorCalled : Bool
  submitCalled : Bool
  deriving Repr

/-- Read a little-endian `u32` from the front of a byte list (borsh length
prefix). -/
def readU32LE : List Nat → Option (Nat × List Nat)
  | b0 :: b1 :: b2 :: b3 :: rest =>
      some (b0 + 256 * b1 + 65536 * b2 + 16777216 * b3, rest)
  | _ => none

/-- A UTF-8 continuation byte: `0x80..0xBF`. -/
def utf8ContOk (b : Nat) : Bool := 128 ≤ b && b ≤ 191

/-- UTF-8 validity of a byte sequence (the check `String::from_utf8` performs
when borsh deserializes the `name` field). -/
def utf8Valid : List Nat → Bool
  | [] => true
  | b :: rest =>
    if b ≤ 127 then utf8Valid rest
    else if 194 ≤ b && b ≤ 223 then
      match rest with
      | c1 :: r => utf8ContOk c1 && utf8Valid r
      | [] => false
    else if b = 224 then
      match rest with
      | c1 :: c2 :: r => (160 ≤ c1 && c1 ≤ 191) && utf8ContOk c2 && utf8Valid r
      | _ => false
    else if 225 ≤ b && b ≤ 236 then
      match rest with
      | c1 :: c2 :: r => utf8ContOk c1 && utf8ContOk c2 && utf8Valid r
      | _ => false
    else if b = 237 then
      match rest with
      | c1 :: c2 :: r => (128 ≤ c1 && c1 ≤ 159) && utf8ContOk c2 && utf8Valid r
      | _ => false
    else if 238 ≤ b && b ≤ 239 then
      match rest with
      | c1 :: c2 :: r => utf8ContOk c1 && utf8ContOk c2 && utf8Valid r
      | _ => false
    else if b = 240 then
      match rest with
      | c1 :: c2 :: c3 :: r =>
          (144 ≤ c1 && c1 ≤ 191) && utf8ContOk c2 && utf8ContOk c3 && utf8Valid r
      | _ => false
    else if 241 ≤ b && b ≤ 243 then
      match rest with
      | c1 :: c2 :: c3 :: r =>
          utf8ContOk c1 && utf8ContOk c2 && utf8ContOk c3 && utf8Valid r
      | _ => false
    else if b = 244 then
      match rest with
      | c1 :: c2 :: c3 :: r =>
          (128 ≤ c1 && c1 ≤ 143) && utf8ContOk c2 && utf8ContOk c3 && utf8Valid r
      | _ => false
    else false

/-- `borsh::from_slice::<HelloWorldParams>` (line 49): `name` as a `u32`
length-prefixed UTF-8 string, then `tx_hex` as a `u32` length-prefixed byte
vector, and the whole slice must be consumed. -/
def borshFromSlice (bs : List Nat) : Option HelloWorldParams :=
  match readU32LE bs with
  | none => none
  | some (nameLen, r1) =>
    if nameLen ≤ r1.length then
      if utf8Valid (r1.take nameLen) then
        match readU32LE (r1.drop nameLen) with
        | none => none
        | some (txLen, r2) =>
          if txLen ≤ r2.length then
            if r2.drop txLen = [] then some ⟨r1.take nameLen, r2.take txLen⟩
            else none
          else none
      else none
    else none

/-- The greeting derivation (line 55): `format!("Hello {}", params.name)` as
UTF-8 bytes, i.e. the bytes of `"Hello "` followed by the name's bytes. -/
def new_data (name : List Nat) : List Nat :=
  [72, 101, 108, 108, 111, 32] ++ name

/-- Run of `process_instruction` after both decodes succeeded (lines 55-98),
starting from the greeting computation. -/
def assembleAndSubmit (host : Host) (account : AccountInfo) (nd : List Nat)
    (feesTx : Transaction) (rcalls : List (Nat × Bool)) : ProcResult :=
  -- lines 75-80: Transaction { version: TWO, lock_time: ZERO, ... };
  -- line 83: add_state_transition(&mut tx, account) appends the anchoring
  -- inputs/outputs in place.
  let tx1 : Transaction :=
    { version := 2, lockTime := 0,
      input := host.anchorIns account, output := host.anchorOuts account }
  -- line 84: tx.input.push(fees_tx.input[0].clone()) — indexing panics when
  -- the fee transaction has no inputs.
  match feesTx.input with
  | [] =>
      { outcome := .abort, accountsData := [nd], reallocCalls := rcalls,
        builtTx := none, txToSign := none,
        anchorCalled := true, submitCalled := false }
  | i0 :: _ =>
    let tx2 : Transaction := { tx1 with input := tx1.input ++ [i0] }
    -- lines 87-93: serialized transaction plus the single required signer.
    let t2s : TransactionToSign :=
      { tx_bytes := host.serializeTx tx2,
        inputs_to_sign := [{ index := 0, signer := account.key }] }
    -- line 98: set_transaction_to_sign(accounts, tx_to_sign)
    match host.submitResult with
    | some e =>
        { outcome := .err e, accountsData := [nd], reallocCalls := rcalls,
          builtTx := some tx2, txToSign := some t2s,
          anchorCalled := true, submitCalled := true }
    | none =>
        { outcome := .ok, accountsData := [nd], reallocCalls := rcalls,
          builtTx := some tx2, txToSign := some t2s,
          anchorCalled := true, submitCalled := true }

/-- The write step (lines 68-72): `copy_from_slice` overwrites the buffer when
its length equals the greeting's length and panics (without mutating) when it
does not.  `curData` is the buffer after the optional resize. -/
def writeAndAssemble (host : Host) (account : AccountInfo)
    (curData nd : List Nat) (feesTx : Transaction)
    (rcalls : List (Nat × Bool)) : ProcResult :=
  if curData.length = nd.length then
    assembleAndSubmit host account nd feesTx rcalls
  else
    { outcome := .abort, accountsData := [curData], reallocCalls := rcalls,
      builtTx := none, txToSign := none,
      anchorCalled := false, submitCalled := false }

/-- Lines 55-98 of `process_instruction`, from the greeting derivation on:
capacity reconciliation (lines 57-61), then write, assembly and
submission.  `get_account_script_pubkey` (line 64) and the block-height query
are logging-only and do not affect the result. -/
def processDecoded (host : Host) (account : AccountInfo)
    (params : HelloWorldParams) (feesTx : Transaction) : ProcResult :=
  -- line 55 binds new_data = "Hello {name}", line 58 binds data_len; here they
  -- are written out as `new_data params.name` and `account.data.length`.
  if (new_data params.name).length > account.data.length then
    -- line 60: account.realloc(new_data.len(), true)? — zero-initialised
    -- growth to exactly the greeting's length; a host failure propagates.
    match host.reallocResult with
    | some e =>
        { outcome := .err e, accountsData := [account.data],
          reallocCalls := [((new_data params.name).length, true)], builtTx := none,
          txToSign := none, anchorCalled := false, submitCalled := false }
    | none =>
        writeAndAssemble host account
          (account.data ++
            List.replicate ((new_data params.name).length - account.data.length) 0)
          (new_data params.name) feesTx
          [((new_data params.name).length, true)]
  else
    writeAndAssemble host account account.data (new_data params.name) feesTx []

/-- `process_instruction` (lines 28-99).  The account-count guard (lines
34-36) returns `ProgramError::Custom(501)`; the two `unwrap`ed decodes (lines
49 and 52) abort on failure; the rest is `processDecoded`.  With exactly one
account, `next_account_info` (line 44) cannot fail and simply yields it. -/
def process_instruction (host : Host) (accounts : List AccountInfo)
    (instruction_data : List Nat) : ProcResult :=
  match accounts with
  | [account] =>
    match borshFromSlice instruction_data with
    | none =>
        { outcome := .abort, accountsData := [account.data],
          reallocCalls := [], builtTx := none, txToSign := none,
          anchorCalled := false, submitCalled := false }
    | some params =>
      match host.decodeTx params.tx_hex with
      | none =>
          { outcome := .abort, accountsData := [account.data],
            reallocCalls := [], builtTx := none, txToSign := none,
            anchorCalled := false, submitCalled := false }
      | some feesTx => processDecoded host account params feesTx
  | _ =>
      { outcome := .err (.custom 501),
        accountsData := accounts.map AccountInfo.data,
        reallocCalls := [], builtTx := none, txToSign := none,
        anchorCalled := false, submitCalled := false }

/-- Whether an outcome is a returned typed error (as opposed to success or an
abort). -/
def isErr : Outcome → Bool
  | .err _ => true
  | _ => false

/-! ### Concrete fixtures for witnesses and counterexamples -/

/-- A host on which every collaborator succeeds and the fee-transaction
decoder rejects everything; the anchoring collaborator appends one input and
one output. -/
def host0 : Host :=
  { bitcoinBlockHeight := 0, decodeTx := fun _ => none,
    scriptPubkey := fun _ => [], reallocResult := none,
    anchorIns := fun _ => [⟨7⟩], anchorOuts := fun _ => [⟨8⟩],
    serializeTx := fun _ => [9, 9], submitResult := none }

/-- A decoded transaction with zero inputs. -/
def txZero : Transaction := { version := 2, lockTime := 0, input := [], output := [] }

/-- A decoded transaction with exactly one input. -/
def txSingle : Transaction := { version := 2, lockTime := 0, input := [⟨5⟩], output := [] }

/-- `host0`, but the fee-transaction decoder yields the zero-input
transaction. -/
def hostZero : Host := { host0 with decodeTx := fun _ => some txZero }

/-- `host0`, but the fee-transaction decoder yields the single-input
transaction. -/
def hostSingle : Host := { host0 with decodeTx := fun _ => some txSingle }

/-- Borsh encoding of `HelloWorldParams { name: "Bob", tx_hex: [42] }`. -/
def bobPayload : List Nat := [3, 0, 0, 0, 66, 111, 98, 1, 0, 0, 0, 42]

/-- An account with key 77 and a 5-byte data buffer. -/
def acctBob : AccountInfo := { key := 77, data := [1, 2, 3, 4, 5] }

/-- The bytes of `"Hello Bob"` (9 bytes). -/
def helloBob : List Nat := [72, 101, 108, 108, 111, 32, 66, 111, 98]

/-- An account with key 77 and a 12-byte data buffer (larger than any greeting
for the name "Bob"). -/
def acctBig : AccountInfo := { key := 77, data := [1, 1, 1, 1, 1, 1, 1, 1, 1, 1, 1, 1] }

/-- The transaction `process_instruction` assembles on `hostSingle` for
`acctBob`: the anchoring input, then the fee input. -/
def txBuilt : Transaction :=
  { version := 2, lockTime := 0, input := [⟨7⟩, ⟨5⟩], output := [⟨8⟩] }

/-- The signing request `process_instruction` builds on `hostSingle` for
`acctBob`. -/
def t2sBuilt : TransactionToSign :=
  { tx_bytes := [9, 9], inputs_to_sign := [{ index := 0, signer := 77 }] }

/-! ### Helper lemmas about the stages of the run -/

theorem assembleAndSubmit_accountsData (host : Host) (account : AccountInfo)
    (nd : List Nat) (feesTx : Transaction) (rcalls : List (Nat × Bool)) :
    (assembleAndSubmit host account nd feesTx rcalls).accountsData = [nd] := by
  unfold assembleAndSubmit
  split
  · rfl
  · split <;> rfl

theorem assembleAndSubmit_reallocCalls (host : Host) (account : AccountInfo)
    (nd : List Nat) (feesTx : Transaction) (rcalls : List (Nat × Bool)) :
    (assembleAndSubmit host account nd feesTx rcalls).reallocCalls = rcalls := by
  unfold assembleAndSubmit
  split
  · rfl
  · split <;> rfl

theorem assembleAndSubmit_builtTx (host : Host) (account : AccountInfo)
    (nd : List Nat) (feesTx : Transaction) (rcalls : List (Nat × Bool))
    (tx : Transaction)
    (h : (assembleAndSubmit host account nd feesTx rcalls).builtTx = some tx) :
    ∃ i0 rest, feesTx.input = i0 :: rest ∧
      tx = { version := 2, lockTime := 0,
             input := host.anchorIns account ++ [i0],
             output := host.anchorOuts account } := by
  unfold assembleAndSubmit at h
  cases hin : feesTx.input with
  | nil => rw [hin] at h; simp at h
  | cons i0 rest =>
    rw [hin] at h
    refine ⟨i0, rest, rfl, ?_⟩
    cases hs : host.submitResult with
    | some e => rw [hs] at h; simp only [Option.some.injEq] at h; exact h.symm
    | none => rw [hs] at h; simp only [Option.some.injEq] at h; exact h.symm

theorem assembleAndSubmit_txToSign (host : Host) (account : AccountInfo)
    (nd : List Nat) (feesTx : Transaction) (rcalls : List (Nat × Bool))
    (t : TransactionToSign)
    (h : (assembleAndSubmit host account nd feesTx rcalls).txToSign = some t) :
    ∃ tx, (assembleAndSubmit host account nd feesTx rcalls).builtTx = some tx ∧
      t = { tx_bytes := host.serializeTx tx,
            inputs_to_sign := [{ index := 0, signer := account.key }] } := by
  unfold assembleAndSubmit at h ⊢
  cases hin : feesTx.input with
  | nil => rw [hin] at h; simp at h
  | cons i0 rest =>
    rw [hin] at h
    cases hs : host.submitResult with
    | some e =>
      rw [hs] at h
      simp only [Option.some.injEq] at h
      exact ⟨_, rfl, h.symm⟩
    | none =>
      rw [hs] at h
      simp only [Option.some.injEq] at h
      exact ⟨_, rfl, h.symm⟩

theorem assembleAndSubmit_outcome_err (host : Host) (account : AccountInfo)
    (nd : List Nat) (feesTx : Transaction) (rcalls : List (Nat × Bool))
    (e : ProgramError)
    (h : (assembleAndSubmit host account nd feesTx rcalls).outcome = .err e) :
    host.submitResult = some e := by
  unfold assembleAndSubmit at h
  cases hin : feesTx.input with
  | nil => rw [hin] at h; simp at h
  | cons i0 rest =>
    rw [hin] at h
    cases hs : host.submitResult with
    | some e' => rw [hs] at h; simp only [Outcome.err.injEq] at h; rw [h]
    | none => rw [hs] at h; simp at h

theorem writeAndAssemble_reallocCalls (host : Host) (account : AccountInfo)
    (curData nd : List Nat) (feesTx : Transaction) (rcalls : List (Nat × Bool)) :
    (writeAndAssemble host account curData nd feesTx rcalls).reallocCalls = rcalls := by
  unfold writeAndAssemble
  split
  · exact assembleAndSubmit_reallocCalls ..
  · rfl

theorem writeAndAssemble_builtTx (host : Host) (account : AccountInfo)
    (curData nd : List Nat) (feesTx : Transaction) (rcalls : List (Nat × Bool))
    (tx : Transaction)
    (h : (writeAndAssemble host account curData nd feesTx rcalls).builtTx = some tx) :
    (assembleAndSubmit host account nd feesTx rcalls).builtTx = some tx := by
  unfold writeAndAssemble at h
  split at h
  · exact h
  · simp at h

theorem writeAndAssemble_txToSign (host : Host) (account : AccountInfo)
    (curData nd : List Nat) (feesTx : Transaction) (rcalls : List (Nat × Bool))
    (t : TransactionToSign)
    (h : (writeAndAssemble host account curData nd feesTx rcalls).txToSign = some t) :
    (assembleAndSubmit host account nd feesTx rcalls).txToSign = some t ∧
    (writeAndAssemble host account curData nd feesTx rcalls).builtTx
      = (assembleAndSubmit host account nd feesTx rcalls).builtTx := by
  unfold writeAndAssemble at h ⊢
  split at h
  · rename_i hc
    rw [if_pos hc]
    exact ⟨h, rfl⟩
  · simp at h

theorem writeAndAssemble_outcome_err (host : Host) (account : AccountInfo)
    (curData nd : List Nat) (feesTx : Transaction) (rcalls : List (Nat × Bool))
    (e : ProgramError)
    (h : (writeAndAssemble host account curData nd feesTx rcalls).outcome = .err e) :
    host.submitResult = some e := by
  unfold writeAndAssemble at h
  split at h
  · exact assembleAndSubmit_outcome_err _ _ _ _ _ _ h
  · simp at h

theorem processDecoded_builtTx (host : Host) (account : AccountInfo)
    (params : HelloWorldParams) (feesTx : Transaction) (tx : Transaction)
    (h : (processDecoded host account params feesTx).builtTx = some tx) :
    ∃ i0 rest, feesTx.input = i0 :: rest ∧
      tx = { version := 2, lockTime := 0,
             input := host.anchorIns account ++ [i0],
             output := host.anchorOuts account } := by
  unfold processDecoded at h
  by_cases hgt : (new_data params.name).length > account.data.length
  · rw [if_pos hgt] at h
    cases hre : host.reallocResult with
    | some e => rw [hre] at h; simp at h
    | none =>
      rw [hre] at h
      exact assembleAndSubmit_builtTx _ _ _ _ _ _ (writeAndAssemble_builtTx _ _ _ _ _ _ _ h)
  · rw [if_neg hgt] at h
    exact assembleAndSubmit_builtTx _ _ _ _ _ _ (writeAndAssemble_builtTx _ _ _ _ _ _ _ h)

theorem processDecoded_outcome_err (host : Host) (account : AccountInfo)
    (params : HelloWorldParams) (feesTx : Transaction) (e : ProgramError)
    (h : (processDecoded host account params feesTx).outcome = .err e) :
    host.reallocResult = some e ∨ host.submitResult = some e := by
  unfold processDecoded at h
  by_cases hgt : (new_data params.name).length > account.data.length
  · rw [if_pos hgt] at h
    cases hre : host.reallocResult with
    | some e' =>
      rw [hre] at h
      simp only [Outcome.err.injEq] at h
      exact Or.inl (by rw [h])
    | none =>
      rw [hre] at h
      exact Or.inr (writeAndAssemble_outcome_err _ _ _ _ _ _ _ h)
  · rw [if_neg hgt] at h
    exact Or.inr (writeAndAssemble_outcome_err _ _ _ _ _ _ _ h)

theorem process_single_decoded (host : Host) (acct : AccountInfo) (d : List Nat)
    (params : HelloWorldParams) (feesTx : Transaction)
    (h1 : borshFromSlice d = some params)
    (h2 : host.decodeTx params.tx_hex = some feesTx) :
    process_instruction host [acct] d = processDecoded host acct params feesTx := by
  simp only [process_instruction, h1, h2]

theorem process_single_borsh_fail (host : Host) (acct : AccountInfo) (d : List Nat)
    (h : borshFromSlice d = none) :
    process_instruction host [acct] d =
      { outcome := .abort, accountsData := [acct.data], reallocCalls := [],
        builtTx := none, txToSign := none,
        anchorCalled := false, submitCalled := false } := by
  simp only [process_instruction, h]

theorem process_single_txdecode_fail (host : Host) (acct : AccountInfo)
    (d : List Nat) (params : HelloWorldParams)
    (h1 : borshFromSlice d = some params)
    (h2 : host.decodeTx params.tx_hex = none) :
    process_instruction host [acct] d =
      { outcome := .abort, accountsData := [acct.data], reallocCalls := [],
        builtTx := none, txToSign := none,
        anchorCalled := false, submitCalled := false } := by
  simp only [process_instruction, h1, h2]

theorem processDecoded_resize_ok (host : Host) (acct : AccountInfo)
    (params : HelloWorldParams) (feesTx : Transaction)
    (h5 : host.reallocResult = none)
    (hgt : (new_data params.name).length > acct.data.length) :
    processDecoded host acct params feesTx =
      writeAndAssemble host acct
        (acct.data ++
          List.replicate ((new_data params.name).length - acct.data.length) 0)
        (new_data params.name) feesTx [((new_data params.name).length, true)] := by
  unfold processDecoded
  rw [if_pos hgt]
  simp only [h5]

theorem processDecoded_resize_fail (host : Host) (acct : AccountInfo)
    (params : HelloWorldParams) (feesTx : Transaction) (e : ProgramError)
    (h5 : host.reallocResult = some e)
    (hgt : (new_data params.name).length > acct.data.length) :
    processDecoded host acct params feesTx =
      { outcome := .err e, accountsData := [acct.data],
        reallocCalls := [((new_data params.name).length, true)], builtTx := none,
        txToSign := none, anchorCalled := false, submitCalled := false } := by
  unfold processDecoded
  rw [if_pos hgt]
  simp only [h5]

theorem processDecoded_no_resize (host : Host) (acct : AccountInfo)
    (params : HelloWorldParams) (feesTx : Transaction)
    (hle : (new_data params.name).length ≤ acct.data.length) :
    processDecoded host acct params feesTx =
      writeAndAssemble host acct acct.data (new_data params.name) feesTx [] := by
  unfold processDecoded
  rw [if_neg (by omega)]

theorem writeAndAssemble_eq_len (host : Host) (acct : AccountInfo)
    (curData nd : List Nat) (feesTx : Transaction) (rcalls : List (Nat × Bool))
    (h : curData.length = nd.length) :
    writeAndAssemble host acct curData nd feesTx rcalls =
      assembleAndSubmit host acct nd feesTx rcalls := by
  unfold writeAndAssemble
  rw [if_pos h]

theorem writeAndAssemble_ne_len (host : Host) (acct : AccountInfo)
    (curData nd : List Nat) (feesTx : Transaction) (rcalls : List (Nat × Bool))
    (h : curData.length ≠ nd.length) :
    writeAndAssemble host acct curData nd feesTx rcalls =
      { outcome := .abort, accountsData := [curData], reallocCalls := rcalls,
        builtTx := none, txToSign := none,
        anchorCalled := false, submitCalled := false } := by
  unfold writeAndAssemble
  rw [if_neg h]

theorem assembleAndSubmit_no_input (host : Host) (acct : AccountInfo)
    (nd : List Nat) (feesTx : Transaction) (rcalls : List (Nat × Bool))
    (h : feesTx.input = []) :
    assembleAndSubmit host acct nd feesTx rcalls =
      { outcome := .abort, accountsData := [nd], reallocCalls := rcalls,
        builtTx := none, txToSign := none,
        anchorCalled := true, submitCalled := false } := by
  unfold assembleAndSubmit
  rw [h]

theorem assembleAndSubmit_submit_ok (host : Host) (acct : AccountInfo)
    (nd : List Nat) (feesTx : Transaction) (rcalls : List (Nat × Bool))
    (i0 : TxIn) (rest : List TxIn)
    (hin : feesTx.input = i0 :: rest) (hs : host.submitResult = none) :
    assembleAndSubmit host acct nd feesTx rcalls =
      { outcome := .ok, accountsData := [nd], reallocCalls := rcalls,
        builtTx := some { version := 2, lockTime := 0,
                          input := host.anchorIns acct ++ [i0],
                          output := host.anchorOuts acct },
        txToSign := some
          { tx_bytes := host.serializeTx
              { version := 2, lockTime := 0,
                input := host.anchorIns acct ++ [i0],
                output := host.anchorOuts acct },
            inputs_to_sign := [{ index := 0, signer := acct.key }] },
        anchorCalled := true, submitCalled := true } := by
  unfold assembleAndSubmit
  rw [hin]
  simp only [hs]

/-! ### Claims -/

/-- Claim C1, counterexample.  With a payload decoding to `name = "Bob"` and a
fee transaction that decodes to zero inputs, the invocation does not fail with
a typed error and the account's 5-byte buffer HAS been mutated (overwritten
with the greeting) by the point of failure: the panic at
`fees_tx.input[0]` happens after the write, refuting "no mutation of the
account's data buffer occurs". -/
theorem c1_counterexample :
    borshFromSlice bobPayload = some { name := [66, 111, 98], tx_hex := [42] } ∧
    hostZero.decodeTx [42] = some txZero ∧ txZero.input = [] ∧
    acctBob.data = [1, 2, 3, 4, 5] ∧
    (process_instruction hostZero [acctBob] bobPayload).accountsData ≠ [[1, 2, 3, 4, 5]] ∧
    isErr (process_instruction hostZero [acctBob] bobPayload).outcome = false := by
  decide

/-- Claim C1, amended.  For every invocation whose payload decodes to
`InstructionParams`, whose `fee_tx_bytes` decodes to a transaction with zero
inputs, and whose write step succeeds (the buffer is not larger than the
greeting and the resize, if any, succeeds), `process_instruction` aborts with
a panic when reading `FeeTransaction.input[0]` — it does not return a typed
`MalformedFeeTransaction` error — and at the point of failure the account's
data buffer has already been overwritten with the greeting. -/
theorem c1_zero_input_fee_abort (host : Host) (acct : AccountInfo) (d : List Nat)
    (params : HelloWorldParams) (feesTx : Transaction)
    (h1 : borshFromSlice d = some params)
    (h2 : host.decodeTx params.tx_hex = some feesTx)
    (h3 : feesTx.input = [])
    (h4 : acct.data.length ≤ (new_data params.name).length)
    (h5 : host.reallocResult = none) :
    (process_instruction host [acct] d).outcome = .abort ∧
    isErr (process_instruction host [acct] d).outcome = false ∧
    (process_instruction host [acct] d).accountsData = [new_data params.name] := by
  rw [process_single_decoded host acct d params feesTx h1 h2]
  by_cases hgt : (new_data params.name).length > acct.data.length
  · rw [processDecoded_resize_ok host acct params feesTx h5 hgt,
        writeAndAssemble_eq_len _ _ _ _ _ _ (by simp; omega),
        assembleAndSubmit_no_input _ _ _ _ _ h3]
    exact ⟨rfl, rfl, rfl⟩
  · rw [processDecoded_no_resize host acct params feesTx (by omega),
        writeAndAssemble_eq_len _ _ _ _ _ _ (by omega),
        assembleAndSubmit_no_input _ _ _ _ _ h3]
    exact ⟨rfl, rfl, rfl⟩

theorem c1_zero_input_fee_abort_witness :
    (process_instruction hostZero [acctBob] bobPayload).outcome = .abort ∧
    isErr (process_instruction hostZero [acctBob] bobPayload).outcome = false ∧
    (process_instruction hostZero [acctBob] bobPayload).accountsData
      = [new_data [66, 111, 98]] :=
  c1_zero_input_fee_abort hostZero acctBob bobPayload
    { name := [66, 111, 98], tx_hex := [42] } txZero
    (by decide) (by rfl) (by rfl) (by decide) (by rfl)

/-- Claim C2, counterexample.  On a single account and an empty (undecodable)
payload, `process_instruction` does not return any typed error value — the
invocation aborts (the `unwrap` on the failed borsh decode panics).  The "no
mutation" half of the claim does hold (last conjunct). -/
theorem c2_counterexample :
    borshFromSlice [] = none ∧
    (process_instruction host0 [acctBob] []).outcome = .abort ∧
    isErr (process_instruction host0 [acctBob] []).outcome = false ∧
    (process_instruction host0 [acctBob] []).accountsData = [[1, 2, 3, 4, 5]] := by
  decide

/-- Claim C2, amended.  For every invocation with exactly one account whose
instruction payload does not decode to `InstructionParams`, the invocation
aborts (panics on the failed decode) rather than returning a typed error, and
no mutation of the account's data buffer occurs: the buffer is unchanged, no
resize is requested and nothing is submitted. -/
theorem c2_malformed_payload_abort (host : Host) (acct : AccountInfo)
    (d : List Nat) (h : borshFromSlice d = none) :
    (process_instruction host [acct] d).outcome = .abort ∧
    isErr (process_instruction host [acct] d).outcome = false ∧
    (process_instruction host [acct] d).accountsData = [acct.data] ∧
    (process_instruction host [acct] d).reallocCalls = [] ∧
    (process_instruction host [acct] d).submitCalled = false := by
  rw [process_single_borsh_fail host acct d h]
  exact ⟨rfl, rfl, rfl, rfl, rfl⟩

theorem c2_malformed_payload_abort_witness :
    (process_instruction host0 [⟨3, [9]⟩] [255]).outcome = .abort ∧
    isErr (process_instruction host0 [⟨3, [9]⟩] [255]).outcome = false ∧
    (process_instruction host0 [⟨3, [9]⟩] [255]).accountsData = [[9]] ∧
    (process_instruction host0 [⟨3, [9]⟩] [255]).reallocCalls = [] ∧
    (process_instruction host0 [⟨3, [9]⟩] [255]).submitCalled = false :=
  c2_malformed_payload_abort host0 ⟨3, [9]⟩ [255] (by decide)

/-- Claim C3, counterexample.  In the end-to-end "Bob" scenario the invocation
succeeds and the buffer becomes exactly the bytes of `"Hello Bob"` — but that
is 9 bytes, not the 11 bytes the claim states. -/
theorem c3_counterexample :
    acctBob.data.length = 5 ∧
    borshFromSlice bobPayload = some { name := [66, 111, 98], tx_hex := [42] } ∧
    hostSingle.decodeTx [42] = some txSingle ∧ txSingle.input = [⟨5⟩] ∧
    (process_instruction hostSingle [acctBob] bobPayload).outcome = .ok ∧
    (process_instruction hostSingle [acctBob] bobPayload).accountsData = [helloBob] ∧
    helloBob.length ≠ 11 := by
  decide

/-- Claim C3, amended.  Given exactly one account whose data buffer is 5 bytes
and a payload decoding to `name = "Bob"` with `fee_tx_bytes` a valid
single-input transaction (and the resize and submission collaborators
succeeding), `process_instruction` succeeds, the account's buffer afterwards
is exactly the bytes `b"Hello Bob"` with length 9 (resized from 5 via one
zero-filling resize to 9), and the submitted transaction contains one fee
input after the anchoring input(s). -/
theorem c3_end_to_end_bob (host : Host) (acct : AccountInfo) (d : List Nat)
    (tx_h : List Nat) (feesTx : Transaction) (i0 : TxIn)
    (hlen : acct.data.length = 5)
    (h1 : borshFromSlice d = some { name := [66, 111, 98], tx_hex := tx_h })
    (h2 : host.decodeTx tx_h = some feesTx)
    (h3 : feesTx.input = [i0])
    (h4 : host.reallocResult = none)
    (h5 : host.submitResult = none) :
    (process_instruction host [acct] d).outcome = .ok ∧
    (process_instruction host [acct] d).accountsData = [helloBob] ∧
    helloBob.length = 9 ∧
    (process_instruction host [acct] d).reallocCalls = [(9, true)] ∧
    ∃ tx, (process_instruction host [acct] d).builtTx = some tx ∧
      tx.input = host.anchorIns acct ++ [i0] := by
  have hnd :
      (new_data ({ name := [66, 111, 98], tx_hex := tx_h } : HelloWorldParams).name).length
        = 9 := rfl
  rw [process_single_decoded host acct d _ feesTx h1 h2,
      processDecoded_resize_ok host acct { name := [66, 111, 98], tx_hex := tx_h }
        feesTx h4 (by rw [hnd, hlen]; decide),
      writeAndAssemble_eq_len _ _ _ _ _ _ (by rw [hnd]; simp [hlen]),
      assembleAndSubmit_submit_ok _ _ _ _ _ i0 [] h3 h5]
  exact ⟨rfl, rfl, rfl, rfl, _, rfl, rfl⟩

theorem c3_end_to_end_bob_witness :
    (process_instruction hostSingle [acctBob] bobPayload).outcome = .ok ∧
    (process_instruction hostSingle [acctBob] bobPayload).accountsData = [helloBob] ∧
    helloBob.length = 9 ∧
    (process_instruction hostSingle [acctBob] bobPayload).reallocCalls = [(9, true)] ∧
    ∃ tx, (process_instruction hostSingle [acctBob] bobPayload).builtTx = some tx ∧
      tx.input = hostSingle.anchorIns acctBob ++ [⟨5⟩] :=
  c3_end_to_end_bob hostSingle acctBob bobPayload [42] txSingle ⟨5⟩
    (by decide) (by decide) (by rfl) (by rfl) (by rfl) (by rfl)

/-- Claim C4.  For every invocation whose account buffer is strictly larger
than the greeting (given both decodes succeed, so the greeting exists), no
resize is requested, the write does not succeed — the `copy_from_slice`
length mismatch aborts the invocation with the buffer unchanged — and the
invocation cannot complete successfully. -/
theorem c4_oversized_buffer_no_write (host : Host) (acct : AccountInfo)
    (d : List Nat) (params : HelloWorldParams) (feesTx : Transaction)
    (h1 : borshFromSlice d = some params)
    (h2 : host.decodeTx params.tx_hex = some feesTx)
    (h3 : (new_data params.name).length < acct.data.length) :
    (process_instruction host [acct] d).reallocCalls = [] ∧
    (process_instruction host [acct] d).outcome = .abort ∧
    (process_instruction host [acct] d).accountsData = [acct.data] := by
  rw [process_single_decoded host acct d params feesTx h1 h2,
      processDecoded_no_resize host acct params feesTx (by omega),
      writeAndAssemble_ne_len _ _ _ _ _ _ (by omega)]
  exact ⟨rfl, rfl, rfl⟩

theorem c4_oversized_buffer_no_write_witness :
    (process_instruction hostSingle [acctBig] bobPayload).reallocCalls = [] ∧
    (process_instruction hostSingle [acctBig] bobPayload).outcome = .abort ∧
    (process_instruction hostSingle [acctBig] bobPayload).accountsData = [acctBig.data] :=
  c4_oversized_buffer_no_write hostSingle acctBig bobPayload
    { name := [66, 111, 98], tx_hex := [42] } txSingle
    (by decide) (by rfl) (by decide)

/-- Claim C5.  For every invocation whose account list has length different
from 1, `process_instruction` returns `ProgramError::Custom(501)` immediately:
no buffer is touched, no resize is requested, and neither the anchoring nor
the submission collaborator is called. -/
theorem c5_invalid_account_count (host : Host) (accounts : List AccountInfo)
    (d : List Nat) (h : accounts.length ≠ 1) :
    (process_instruction host accounts d).outcome = .err (.custom 501) ∧
    (process_instruction host accounts d).reallocCalls = [] ∧
    (process_instruction host accounts d).accountsData = accounts.map AccountInfo.data ∧
    (process_instruction host accounts d).anchorCalled = false ∧
    (process_instruction host accounts d).submitCalled = false := by
  cases accounts with
  | nil => exact ⟨rfl, rfl, rfl, rfl, rfl⟩
  | cons a t =>
    cases t with
    | nil => simp at h
    | cons b r => exact ⟨rfl, rfl, rfl, rfl, rfl⟩

theorem c5_invalid_account_count_witness :
    (process_instruction host0 ([] : List AccountInfo) []).outcome = .err (.custom 501) ∧
    (process_instruction host0 ([] : List AccountInfo) []).reallocCalls = [] ∧
    (process_instruction host0 ([] : List AccountInfo) []).accountsData
      = ([] : List AccountInfo).map AccountInfo.data ∧
    (process_instruction host0 ([] : List AccountInfo) []).anchorCalled = false ∧
    (process_instruction host0 ([] : List AccountInfo) []).submitCalled = false :=
  c5_invalid_account_count host0 [] [] (by decide)

/-- Claim C6.  For every invocation (with both decodes succeeding, so the
greeting exists): if the greeting is strictly longer than the current buffer,
exactly one resize to exactly the greeting's length with zero-fill enabled is
requested; if it is not longer, no resize is requested and the buffer keeps
its existing size. -/
theorem c6_capacity_reconciliation (host : Host) (acct : AccountInfo)
    (d : List Nat) (params : HelloWorldParams) (feesTx : Transaction)
    (h1 : borshFromSlice d = some params)
    (h2 : host.decodeTx params.tx_hex = some feesTx) :
    ((new_data params.name).length > acct.data.length →
      (process_instruction host [acct] d).reallocCalls
        = [((new_data params.name).length, true)]) ∧
    ((new_data params.name).length ≤ acct.data.length →
      (process_instruction host [acct] d).reallocCalls = [] ∧
      ((process_instruction host [acct] d).accountsData.headD []).length
        = acct.data.length) := by
  rw [process_single_decoded host acct d params feesTx h1 h2]
  constructor
  · intro hgt
    cases hre : host.reallocResult with
    | some e => rw [processDecoded_resize_fail host acct params feesTx e hre hgt]
    | none =>
      rw [processDecoded_resize_ok host acct params feesTx hre hgt]
      exact writeAndAssemble_reallocCalls ..
  · intro hle
    rw [processDecoded_no_resize host acct params feesTx hle]
    refine ⟨writeAndAssemble_reallocCalls .., ?_⟩
    by_cases heq : acct.data.length = (new_data params.name).length
    · rw [writeAndAssemble_eq_len _ _ _ _ _ _ heq, assembleAndSubmit_accountsData]
      exact heq.symm
    · rw [writeAndAssemble_ne_len _ _ _ _ _ _ heq]
      rfl

theorem c6_capacity_reconciliation_witness :
    (new_data ([66, 111, 98] : List Nat)).length > acctBob.data.length ∧
    (process_instruction hostSingle [acctBob] bobPayload).reallocCalls = [(9, true)] :=
  ⟨by decide,
   (c6_capacity_reconciliation hostSingle acctBob bobPayload
      { name := [66, 111, 98], tx_hex := [42] } txSingle
      (by decide) (by rfl)).1 (by decide)⟩

/-- Claim C7.  For every decoded name (including the empty byte string), the
derived greeting is the bytes of `"Hello "` followed by the name's bytes; in
particular for `name = "Alice"` it is exactly the bytes of `"Hello Alice"`. -/
theorem c7_greeting_derivation (name : List Nat) :
    new_data name = ("Hello ".toList.map Char.toNat) ++ name ∧
    new_data ("Alice".toList.map Char.toNat) = "Hello Alice".toList.map Char.toNat := by
  constructor
  · have h : ("Hello ".toList.map Char.toNat) = [72, 101, 108, 108, 111, 32] := by
      decide
    rw [h]
    rfl
  · decide

/-- Claim C8.  Whenever the run produces an assembled `OutputTransaction`
(`builtTx = some tx`), it has version 2 and lock time 0, and its input list is
the anchoring collaborator's appended inputs followed by exactly the fee
transaction's first input. -/
theorem c8_output_transaction_shape (host : Host) (acct : AccountInfo)
    (d : List Nat) (params : HelloWorldParams) (feesTx : Transaction)
    (i0 : TxIn) (rest : List TxIn) (tx : Transaction)
    (h1 : borshFromSlice d = some params)
    (h2 : host.decodeTx params.tx_hex = some feesTx)
    (h3 : feesTx.input = i0 :: rest)
    (h4 : (process_instruction host [acct] d).builtTx = some tx) :
    tx.version = 2 ∧ tx.lockTime = 0 ∧
    tx.input = host.anchorIns acct ++ [i0] := by
  rw [process_single_decoded host acct d params feesTx h1 h2] at h4
  obtain ⟨j0, jrest, hin, htx⟩ := processDecoded_builtTx _ _ _ _ _ h4
  rw [h3] at hin
  injection hin with hj hr
  subst hj
  subst htx
  exact ⟨rfl, rfl, rfl⟩

theorem c8_output_transaction_shape_witness :
    txBuilt.version = 2 ∧ txBuilt.lockTime = 0 ∧
    txBuilt.input = hostSingle.anchorIns acctBob ++ [⟨5⟩] :=
  c8_output_transaction_shape hostSingle acctBob bobPayload
    { name := [66, 111, 98], tx_hex := [42] } txSingle ⟨5⟩ [] txBuilt
    (by decide) (by rfl) (by rfl) (by decide)

theorem processDecoded_txToSign (host : Host) (acct : AccountInfo)
    (params : HelloWorldParams) (feesTx : Transaction) (t : TransactionToSign)
    (h : (processDecoded host acct params feesTx).txToSign = some t) :
    ∃ tx, (processDecoded host acct params feesTx).builtTx = some tx ∧
      t = { tx_bytes := host.serializeTx tx,
            inputs_to_sign := [{ index := 0, signer := acct.key }] } := by
  by_cases hgt : (new_data params.name).length > acct.data.length
  · cases hre : host.reallocResult with
    | some e =>
      rw [processDecoded_resize_fail host acct params feesTx e hre hgt] at h
      simp at h
    | none =>
      rw [processDecoded_resize_ok host acct params feesTx hre hgt] at h ⊢
      obtain ⟨ht, hbt⟩ := writeAndAssemble_txToSign _ _ _ _ _ _ _ h
      obtain ⟨tx, hbtx, hteq⟩ := assembleAndSubmit_txToSign _ _ _ _ _ _ ht
      exact ⟨tx, by rw [hbt, hbtx], hteq⟩
  · rw [processDecoded_no_resize host acct params feesTx (by omega)] at h ⊢
    obtain ⟨ht, hbt⟩ := writeAndAssemble_txToSign _ _ _ _ _ _ _ h
    obtain ⟨tx, hbtx, hteq⟩ := assembleAndSubmit_txToSign _ _ _ _ _ _ ht
    exact ⟨tx, by rw [hbt, hbtx], hteq⟩

/-- Claim C9.  Whenever the run constructs a signing request
(`txToSign = some t`), it carries the serialized assembled transaction and
exactly one required-signer entry, naming input index 0 and the single
account's public key. -/
theorem c9_signing_request_shape (host : Host) (acct : AccountInfo)
    (d : List Nat) (t : TransactionToSign)
    (h : (process_instruction host [acct] d).txToSign = some t) :
    ∃ tx, (process_instruction host [acct] d).builtTx = some tx ∧
      t.tx_bytes = host.serializeTx tx ∧
      t.inputs_to_sign = [{ index := 0, signer := acct.key }] := by
  cases hb : borshFromSlice d with
  | none =>
    rw [process_single_borsh_fail host acct d hb] at h
    simp at h
  | some params =>
    cases hd : host.decodeTx params.tx_hex with
    | none =>
      rw [process_single_txdecode_fail host acct d params hb hd] at h
      simp at h
    | some feesTx =>
      rw [process_single_decoded host acct d params feesTx hb hd] at h ⊢
      obtain ⟨tx, hbtx, hteq⟩ := processDecoded_txToSign _ _ _ _ _ h
      subst hteq
      exact ⟨tx, hbtx, rfl, rfl⟩

theorem c9_signing_request_shape_witness :
    ∃ tx, (process_instruction hostSingle [acctBob] bobPayload).builtTx = some tx ∧
      t2sBuilt.tx_bytes = hostSingle.serializeTx tx ∧
      t2sBuilt.inputs_to_sign = [{ index := 0, signer := acctBob.key }] :=
  c9_signing_request_shape hostSingle acctBob bobPayload t2sBuilt (by decide)

/-- Claim C10.  Every typed error value `process_instruction` returns is
either the single custom code 501 — returned exactly when the account list
length differs from 1 — or an error propagated verbatim from the buffer-resize
or signing-submission collaborator (account selection cannot fail once the
arity check passed); decode failures of the payload or of the fee transaction
never yield a returned typed error: the invocation aborts instead. -/
theorem c10_error_space (host : Host) (accounts : List AccountInfo) (d : List Nat) :
    (∀ e, (process_instruction host accounts d).outcome = .err e →
        (accounts.length ≠ 1 ∧ e = .custom 501) ∨
        host.reallocResult = some e ∨ host.submitResult = some e) ∧
    (accounts.length ≠ 1 →
        (process_instruction host accounts d).outcome = .err (.custom 501)) ∧
    (∀ acct, accounts = [acct] → borshFromSlice d = none →
        (process_instruction host accounts d).outcome = .abort) ∧
    (∀ acct params, accounts = [acct] → borshFromSlice d = some params →
        host.decodeTx params.tx_hex = none →
        (process_instruction host accounts d).outcome = .abort) := by
  refine ⟨?_, ?_, ?_, ?_⟩
  · intro e he
    cases accounts with
    | nil =>
      simp only [process_instruction] at he
      injection he with h'
      exact Or.inl ⟨by simp, h'.symm⟩
    | cons a t =>
      cases t with
      | nil =>
        cases hb : borshFromSlice d with
        | none =>
          rw [process_single_borsh_fail host a d hb] at he
          simp at he
        | some params =>
          cases hd : host.decodeTx params.tx_hex with
          | none =>
            rw [process_single_txdecode_fail host a d params hb hd] at he
            simp at he
          | some feesTx =>
            rw [process_single_decoded host a d params feesTx hb hd] at he
            exact Or.inr (processDecoded_outcome_err _ _ _ _ _ he)
      | cons b r =>
        simp only [process_instruction] at he
        injection he with h'
        exact Or.inl ⟨by simp, h'.symm⟩
  · intro hne
    cases accounts with
    | nil => rfl
    | cons a t =>
      cases t with
      | nil => simp at hne
      | cons b r => rfl
  · intro acct ha hb
    subst ha
    rw [process_single_borsh_fail host acct d hb]
  · intro acct params ha hb hd
    subst ha
    rw [process_single_txdecode_fail host acct d params hb hd]

theorem c10_error_space_witness :
    (process_instruction host0 ([] : List AccountInfo) []).outcome
      = .err (.custom 501) :=
  (c10_error_space host0 [] []).2.1 (by decide)

end HelloWorld
